import Mathlib

/-!
Verification of the `aviti` sequencing-calculator repository.

The numeric pipeline of the repository (pooling, ng/µL → nM conversion,
the dilution/aliquot solver, and the neutralization/top-up propagation)
is embedded shallowly over `ℚ`: Python floats are modelled as exact
rationals, `round(x, n)` as round-half-to-even at `n` decimal places,
and Python tuple comparison as the lexicographic order on candidate
tuples.  `candidates.sort(reverse=True); candidates[0]` is modelled as
taking the lexicographically greatest tuple of the candidate list.
-/

set_option allowUnsafeReducibility true in
attribute [semireducible] Rat.mul Rat.add Rat.sub Rat.div Rat.inv Rat.blt Rat.normalize mkRat Rat.ofScientific

namespace Aviti

/-- Python `abs` on exact rationals. -/
def qabs (q : ℚ) : ℚ := if q < 0 then -q else q

/-- Python `round(q, n)` (round half to even at `n` decimal places),
on exact rationals. -/
def pyRound (n : ℕ) (q : ℚ) : ℚ :=
  if q * 10 ^ n - (⌊q * 10 ^ n⌋ : ℚ) < 1/2 then (⌊q * 10 ^ n⌋ : ℚ) / 10 ^ n
  else if 1/2 < q * 10 ^ n - (⌊q * 10 ^ n⌋ : ℚ) then ((⌊q * 10 ^ n⌋ : ℚ) + 1) / 10 ^ n
  else if ⌊q * 10 ^ n⌋ % 2 = 0 then (⌊q * 10 ^ n⌋ : ℚ) / 10 ^ n
  else ((⌊q * 10 ^ n⌋ : ℚ) + 1) / 10 ^ n

/-- A solver candidate, the tuple
`(score, dilution_factor, round(L,2), round(P,2), round(pre_total,2), achieved_pM)`
appended to `candidates` in `aviti.py` and `seq_gemini.py`. -/
structure Cand where
  score : ℚ
  d : ℚ
  L : ℚ
  P : ℚ
  pre : ℚ
  ach : ℚ
deriving DecidableEq, Repr

/-- The fields of a candidate in Python tuple-comparison order. -/
def keys (c : Cand) : List ℚ := [c.score, c.d, c.L, c.P, c.pre, c.ach]

/-- Python tuple `<` on candidates: lexicographic comparison of the fields. -/
def tupLt (a b : Cand) : Prop := List.Lex (· < ·) (keys a) (keys b)

instance (a b : Cand) : Decidable (tupLt a b) :=
  inferInstanceAs (Decidable (List.Lex _ _ _))

/-- One step of scanning for the greatest candidate tuple.  Keeping the
greatest tuple of the list is exactly what `candidates.sort(reverse=True)`
followed by `candidates[0]` computes (Python's sort is stable and the
tuples of distinct `(d, L)` pairs are distinct). -/
def optStep : Option Cand → Cand → Option Cand
  | none, x => some x
  | some b, x => some (if tupLt b x then x else b)

/-- `candidates.sort(reverse=True); best = candidates[0]` (with `None` for
an empty candidate list): the lexicographically greatest candidate. -/
def bestOf (l : List Cand) : Option Cand := l.foldl optStep none

/-- One step of the selection rule the specification describes: keep the
first candidate attaining the maximal score (ties do not replace the
incumbent).  Modelled from the spec's words, for comparison with the
code's `bestOf`. -/
def firstStep : Option Cand → Cand → Option Cand
  | none, x => some x
  | some b, x => if b.score < x.score then some x else some b

/-- Enumeration-order-first argmax of the score, as the spec describes
the tie-break.  Modelled from the spec: 'ties broken by first-found in
enumeration order'. -/
def specSelect (l : List Cand) : Option Cand := l.foldl firstStep none

/-- `phix_fraction = 0.01`, fixed by the SOP in `aviti.py` (line 95) and
`seq_gemini.py` (line 138). -/
def phixFraction : ℚ := 0.01

/-- One iteration of the solver's inner loop over the library aliquot `L`
(`aviti.py` lines 105-121, `seq_gemini.py` lines 150-165): derive the PhiX
volume `P`, reject non-pipettable candidates and totals over 30 µL, and
score the survivor. -/
def mkCand (d C_L phix eff L : ℚ) : Option Cand :=
  let denom := (1 - phixFraction) * phix
  if denom ≤ 0 then none
  else
    let P := (phixFraction * L * C_L) / denom
    if P < 1 ∨ 10 < P then none
    else
      let pre := L + P
      if pre ≤ 0 ∨ 30 < pre then none
      else
        let achieved := (L * C_L + P * phix) / pre * 1000
        let diff := qabs (achieved - eff)
        let score := -diff - qabs (6 - L)
        some ⟨score, d, pyRound 2 L, pyRound 2 P, pyRound 2 pre, achieved⟩

/-- The aliquot grid `[x/10.0 for x in range(10,101)]`: 1.0 to 10.0 µL in
0.1 µL steps. -/
def lGrid : List ℚ := (List.range 91).map (fun i => ((i : ℚ) + 10) / 10)

/-- All candidates of the inner loop for a fixed dilution factor. -/
def innerCands (d C_L phix eff : ℚ) : List Cand :=
  lGrid.filterMap (mkCand d C_L phix eff)

/-- The outer-loop grid `range(1, 51)` of `seq_gemini.py` (line 145). -/
def dGrid : List ℕ := (List.range 50).map (fun i => i + 1)

/-- One outer-loop iteration of `seq_gemini.py` (lines 145-165): skip when
the diluted concentration is nonpositive, else run the inner loop. -/
def gBlock (pool phix eff : ℚ) (d : ℕ) : List Cand :=
  if pool / (d : ℚ) ≤ 0 then [] else innerCands (d : ℚ) (pool / (d : ℚ)) phix eff

/-- The full candidate list of `seq_gemini.py`, in enumeration order
(`d` ascending outer loop, `L` ascending inner loop). -/
def gemCandidates (pool phix eff : ℚ) : List Cand :=
  dGrid.flatMap (gBlock pool phix eff)

/-- `seq_gemini.py` lines 167-169: sort the candidates descending and take
the first, `None` when the list is empty. -/
def gemSolve (pool phix eff : ℚ) : Option Cand :=
  bestOf (gemCandidates pool phix eff)

/-- The candidate list of `aviti.py` (lines 100-121): the dilution factor
is a single user input, only `L` is enumerated. -/
def avitiCandidates (pool phix eff : ℚ) (d : ℕ) : List Cand :=
  innerCands (d : ℚ) (pool / (d : ℚ)) phix eff

/-- `aviti.py` lines 123-125: sort descending, take the first candidate. -/
def avitiSolve (pool phix eff : ℚ) (d : ℕ) : Option Cand :=
  bestOf (avitiCandidates pool phix eff d)

/-- The downstream volumes computed by `aviti.py` (lines 138-142) and their
`seq_gemini.py` duplicates (lines 187-191). -/
structure TopUp where
  pre : ℚ
  naoh : ℚ
  tris : ℚ
  total : ℚ
  buffer : ℚ
deriving DecidableEq, Repr

/-- `aviti.py` lines 138-142: NaOH and Tris volumes equal the pre-denature
total, then top up to 1400 µL (floored at 0). -/
def avitiTopUp (chosenL chosenP : ℚ) : TopUp :=
  let pre := pyRound 3 (chosenL + chosenP)
  let naoh := pre
  let tris := naoh
  let total := pyRound 3 (pre + naoh + tris)
  let buffer := pyRound 3 (max 0 (1400 - total))
  ⟨pre, naoh, tris, total, buffer⟩

/-- `aviti.py` line 138: `(chosen_L or 0) + (chosen_P or 0)` — when the
solver found no plan the volumes default to `0`. -/
def avitiDownstream (r : Option Cand) : TopUp :=
  avitiTopUp ((r.map Cand.L).getD 0) ((r.map Cand.P).getD 0)

/-- The final steps of `seq.py` (lines 195-212), including the explicit
over-capacity check of line 211. -/
structure SeqTopUp where
  naoh : ℚ
  tris : ℚ
  total : ℚ
  buffer : ℚ
  capacityWarning : Bool
deriving DecidableEq, Repr

/-- `seq.py` lines 195-212: equal-volume NaOH and Tris, top-up to the fixed
final loading volume 1400 µL, and an error shown when the running total
exceeds it. -/
def seqTopUp (preDenatureVol : ℚ) : SeqTopUp :=
  let naoh := preDenatureVol
  let tris := naoh
  let total := pyRound 3 (preDenatureVol + naoh + tris)
  let buffer := pyRound 3 (max 0 (1400 - total))
  ⟨naoh, tris, total, buffer, decide (1400 < total)⟩

/-- `aviti.py` line 81: pooled mass concentration (ng/µL) to molar
concentration (nM), with the hard-coded `0.8` recovery factor. -/
def pool_conc_nM (pooled_ngul library_size_bp : ℚ) : ℚ :=
  pooled_ngul * 0.8 * 1000000 / 660 / library_size_bp

/-- `seq.py` lines 112-115: ng/µL → nM conversion, zero on nonpositive
inputs. -/
def library_nM (desired_ng_per_ul avg_bp : ℚ) : ℚ :=
  if 0 < desired_ng_per_ul ∧ 0 < avg_bp then
    desired_ng_per_ul * 1000000 / (660 * avg_bp)
  else 0

/-- The PhiX-volume formula `P = (f*L*C_L)/((1-f)*C_phix)` shared by the
solver variants (`aviti.py` line 109, `seq_gemini.py` line 154,
`seq.py` line 138). -/
def phixVolume (f L C_L C_phix : ℚ) : ℚ := (f * L * C_L) / ((1 - f) * C_phix)

/-- The achieved PhiX molar fraction `(P*C_phix)/(L*C_L + P*C_phix)`
(`seq.py` line 164). -/
def achievedPhixFraction (L C_L P C_phix : ℚ) : ℚ :=
  (P * C_phix) / (L * C_L + P * C_phix)

/-- `aviti.py` line 50: `uL_to_pool = round(target_ng / conc, 6)`. -/
def uL_to_pool (target_ng conc : ℚ) : ℚ := pyRound 6 (target_ng / conc)

/-- `aviti.py` line 51: `ng_pooled = round(conc * uL_to_pool, 3)`. -/
def ng_pooled (target_ng conc : ℚ) : ℚ :=
  pyRound 3 (conc * uL_to_pool target_ng conc)

/-- `aviti.py` line 56: total pooled volume, summed over the rounded
per-sample volumes. -/
def pool_volume (target_ng : ℚ) (concs : List ℚ) : ℚ :=
  (concs.map (uL_to_pool target_ng)).sum

/-- `aviti.py` line 75 numerator: total pooled mass, summed over the
rounded per-sample masses. -/
def total_ng_pooled (target_ng : ℚ) (concs : List ℚ) : ℚ :=
  (concs.map (ng_pooled target_ng)).sum

/-- `aviti.py` line 75: expected pooled concentration, `0` when the pooled
volume is not positive. -/
def expected_pooled_ngul (target_ng : ℚ) (concs : List ℚ) : ℚ :=
  if 0 < pool_volume target_ng concs then
    total_ng_pooled target_ng concs / pool_volume target_ng concs
  else 0

/-- Result of the aliquot search of `seq.py`: a grid hit, the explicit
fallback plan, or no plan at all. -/
inductive AliquotResult where
  | found (L P : ℚ)
  | fallback (L P : ℚ)
  | noPlan
deriving DecidableEq, Repr

/-- `seq.py` line 123: `[round(x*0.5,2) for x in range(2,21)]`, i.e.
1.0, 1.5, …, 10.0 µL (the values are exact halves, so the rounding is the
identity). -/
def candidate_L : List ℚ := (List.range 19).map (fun i => ((i : ℚ) + 2) / 2)

/-- The grid loop of `seq.py` (lines 130-144): first `L` whose derived `P`
is pipettable wins; the loop breaks once `L` exceeds the available volume.
`P` is NaN (and the candidate skipped) when the denominator or the library
concentration is nonpositive. -/
def findAliquot (lib f maxL : ℚ) : List ℚ → Option (ℚ × ℚ)
  | [] => none
  | L :: rest =>
    if maxL < L then none
    else if 1 * (1 - f) ≤ 0 ∨ lib ≤ 0 then findAliquot lib f maxL rest
    else
      let P := (f * L * lib) / (1 * (1 - f))
      if 1 ≤ P ∧ P ≤ 10 ∧ L + P ≤ 10 then some (L, pyRound 3 P)
      else findAliquot lib f maxL rest

/-- The fallback branch of `seq.py` (lines 146-166): clamp `L` to the
maximum available aliquot, clamp `P` into `[1, 10]`, and if the combined
volume exceeds 10 µL reduce `P` to `10 - L` but never below 1 µL. -/
def seqFallback (lib f maxL : ℚ) : AliquotResult :=
  let L := pyRound 3 maxL
  if 1 - f ≤ 0 ∨ lib ≤ 0 then .noPlan
  else
    let praw := (f * L * lib) / (1 * (1 - f))
    let P1 := max 1 (min praw 10)
    let P2 := if 10 < L + P1 then pyRound 3 (max 1 (10 - L)) else P1
    .fallback L (pyRound 3 P2)

/-- The aliquot selection of `seq.py` (lines 119-166): grid search capped
at `max_L_available = min(prep_diluted_vol, 10.0)`, then the fallback. -/
def chooseAliquots (lib f prep_diluted_vol : ℚ) : AliquotResult :=
  let maxL := min prep_diluted_vol 10
  match findAliquot lib f maxL candidate_L with
  | some (L, P) => .found L P
  | none => seqFallback lib f maxL


/-- The tied maximal candidate produced first (dilution factor 1) on the
tie-break test input. -/
def candTie1 : Cand := ⟨-25000/297, 1, 6, 6, 12, 50000/99⟩

/-- The tied maximal candidate produced later (dilution factor 2) on the
tie-break test input. -/
def candTie2 : Cand := ⟨-25000/297, 2, 6, 3, 9, 100000/297⟩

/-- The aliquot grid strictly below 6.0 µL (1.0 to 5.9). -/
def gA : List ℚ := (List.range 50).map (fun i => ((i : ℚ) + 10) / 10)

/-- The aliquot grid strictly above 6.0 µL (6.1 to 10.0). -/
def gB : List ℚ := (List.range 40).map (fun i => ((i : ℚ) + 61) / 10)

theorem qabs_nonneg (q : ℚ) : 0 ≤ qabs q := by
  unfold qabs; split <;> linarith

theorem qabs_eq_abs (q : ℚ) : qabs q = |q| := by
  unfold qabs; split
  · rw [abs_of_neg]; assumption
  · rw [abs_of_nonneg]; linarith

/-- `pyRound n` returns either `⌊q·10^n⌋/10^n` or `(⌊q·10^n⌋+1)/10^n`. -/
theorem pyRound_cases (n : ℕ) (q : ℚ) :
    pyRound n q = ((⌊q * 10 ^ n⌋ : ℚ)) / 10 ^ n ∨
    pyRound n q = ((⌊q * 10 ^ n⌋ : ℚ) + 1) / 10 ^ n := by
  unfold pyRound
  split
  · left; rfl
  · split
    · right; rfl
    · split
      · left; rfl
      · right; rfl

theorem pyRound_nonneg (n : ℕ) (q : ℚ) (h : 0 ≤ q) : 0 ≤ pyRound n q := by
  have hm : (0:ℚ) < 10 ^ n := by positivity
  have hfl : (0:ℤ) ≤ ⌊q * 10 ^ n⌋ := by
    apply Int.floor_nonneg.mpr; positivity
  rcases pyRound_cases n q with hc | hc <;> rw [hc] <;> positivity

/-- If `q` is already an `n`-decimal value, `pyRound n` is the identity. -/
theorem pyRound_eq_self (n : ℕ) (q : ℚ) (k : ℤ) (hk : q * 10 ^ n = (k : ℚ)) :
    pyRound n q = q := by
  have hm : (0:ℚ) < 10 ^ n := by positivity
  have hfl : ⌊q * 10 ^ n⌋ = k := by rw [hk]; exact Int.floor_intCast k
  unfold pyRound
  rw [hfl, hk, sub_self]
  rw [if_pos (by norm_num : (0:ℚ) < 1/2)]
  rw [div_eq_iff (ne_of_gt hm)]
  linarith [hk]

/-- Lower bound: `pyRound` does not go below an `n`-decimal lower bound. -/
theorem le_pyRound (n : ℕ) (q : ℚ) (k : ℤ) (hk : (k : ℚ) / 10 ^ n ≤ q) :
    (k : ℚ) / 10 ^ n ≤ pyRound n q := by
  have hm : (0:ℚ) < 10 ^ n := by positivity
  have hky : (k : ℚ) ≤ q * 10 ^ n := by
    rw [div_le_iff₀ hm] at hk; linarith
  have hfl : k ≤ ⌊q * 10 ^ n⌋ := Int.le_floor.mpr (by exact_mod_cast hky)
  have hfl' : (k : ℚ) ≤ (⌊q * 10 ^ n⌋ : ℚ) := by exact_mod_cast hfl
  rcases pyRound_cases n q with hc | hc <;> rw [hc] <;>
    exact div_le_div_of_nonneg_right (by linarith) hm.le

/-- Upper bound: `pyRound` does not go above an `n`-decimal upper bound. -/
theorem pyRound_le (n : ℕ) (q : ℚ) (k : ℤ) (hk : q ≤ (k : ℚ) / 10 ^ n) :
    pyRound n q ≤ (k : ℚ) / 10 ^ n := by
  have hm : (0:ℚ) < 10 ^ n := by positivity
  have hky : q * 10 ^ n ≤ (k : ℚ) := by
    rw [le_div_iff₀ hm] at hk; linarith
  have hfl : ⌊q * 10 ^ n⌋ ≤ k := by
    have := Int.floor_le_floor hky
    rwa [Int.floor_intCast] at this
  rcases lt_or_eq_of_le hfl with hlt | heq
  · have h1 : (⌊q * 10 ^ n⌋ : ℚ) + 1 ≤ (k : ℚ) := by exact_mod_cast hlt
    rcases pyRound_cases n q with hc | hc <;> rw [hc] <;>
      exact div_le_div_of_nonneg_right (by linarith) hm.le
  · -- the floor equals `k` and `y ≤ k`, so the fractional part is `0`
    have hy : q * 10 ^ n - (⌊q * 10 ^ n⌋ : ℚ) ≤ 0 := by
      rw [heq]; linarith
    unfold pyRound
    have hr : q * 10 ^ n - (⌊q * 10 ^ n⌋ : ℚ) < 1/2 := by linarith
    rw [if_pos hr, heq]

/-- The result of `pyRound n` is an `n`-decimal value. -/
theorem pyRound_is_decimal (n : ℕ) (q : ℚ) :
    ∃ k : ℤ, pyRound n q * 10 ^ n = (k : ℚ) := by
  have hm : (0:ℚ) < 10 ^ n := by positivity
  rcases pyRound_cases n q with hc | hc <;> rw [hc]
  · exact ⟨⌊q * 10 ^ n⌋, by field_simp⟩
  · exact ⟨⌊q * 10 ^ n⌋ + 1, by push_cast; field_simp⟩

theorem keys_injective {a b : Cand} (h : keys a = keys b) : a = b := by
  cases a; cases b
  simp only [keys, List.cons.injEq, and_true] at h
  obtain ⟨h1, h2, h3, h4, h5, h6⟩ := h
  simp_all

theorem tupLt_irrefl (a : Cand) : ¬ tupLt a a :=
  irrefl_of (List.Lex (· < ·)) (keys a)

theorem tupLt_trans {a b c : Cand} (h1 : tupLt a b) (h2 : tupLt b c) : tupLt a c :=
  trans_of (List.Lex (· < ·)) h1 h2

theorem tupLt_asymm {a b : Cand} (h : tupLt a b) : ¬ tupLt b a := fun h' =>
  tupLt_irrefl a (tupLt_trans h h')

theorem tupLt_total (a b : Cand) : a = b ∨ tupLt a b ∨ tupLt b a := by
  have htri := @trichotomous (List ℚ) (List.Lex (· < ·))
    (List.Lex.isTrichotomous _) (keys a) (keys b)
  rcases htri with h | h | h
  · exact Or.inr (Or.inl h)
  · exact Or.inl (keys_injective h)
  · exact Or.inr (Or.inr h)

theorem tupLt_score_le {a b : Cand} (h : tupLt a b) : a.score ≤ b.score := by
  obtain ⟨s1, d1, L1, P1, p1, a1⟩ := a
  obtain ⟨s2, d2, L2, P2, p2, a2⟩ := b
  unfold tupLt keys at h
  cases h with
  | rel h' => exact le_of_lt h'
  | cons h' => exact le_refl _

theorem foldl_optStep_stay (b : Cand) :
    ∀ (l : List Cand), (∀ x ∈ l, x = b ∨ tupLt x b) →
      l.foldl optStep (some b) = some b
  | [], _ => rfl
  | x :: t, h => by
    have hx := h x (List.mem_cons_self x t)
    have hnb : ¬ tupLt b x := by
      rcases hx with rfl | hlt
      · exact tupLt_irrefl x
      · exact tupLt_asymm hlt
    simp only [List.foldl_cons, optStep, if_neg hnb]
    exact foldl_optStep_stay b t (fun y hy => h y (List.mem_cons_of_mem _ hy))

theorem foldl_optStep_reach (c : Cand) (l₂ : List Cand)
    (h₂ : ∀ y ∈ l₂, y = c ∨ tupLt y c) :
    ∀ (l₁ : List Cand) (acc : Option Cand),
      (∀ x ∈ l₁, x = c ∨ tupLt x c) →
      (acc = none ∨ ∃ a, acc = some a ∧ (a = c ∨ tupLt a c)) →
      (l₁ ++ c :: l₂).foldl optStep acc = some c
  | [], acc, _, hacc => by
    simp only [List.nil_append, List.foldl_cons]
    have hstep : optStep acc c = some c := by
      rcases hacc with rfl | ⟨a, rfl, ha⟩
      · rfl
      · rcases ha with rfl | hlt
        · simp [optStep, if_neg (tupLt_irrefl a)]
        · simp [optStep, if_pos hlt]
    rw [hstep]
    exact foldl_optStep_stay c l₂ h₂
  | x :: t, acc, h₁, hacc => by
    simp only [List.cons_append, List.foldl_cons]
    have hx := h₁ x (List.mem_cons_self x t)
    refine foldl_optStep_reach c l₂ h₂ t (optStep acc x)
      (fun y hy => h₁ y (List.mem_cons_of_mem _ hy)) (Or.inr ?_)
    rcases hacc with rfl | ⟨a, rfl, ha⟩
    · exact ⟨x, rfl, hx⟩
    · refine ⟨if tupLt a x then x else a, rfl, ?_⟩
      split
      · exact hx
      · exact ha

/-- If the list splits around `c` and every element is `c` or lexicographically
below it, the scan returns `c`. -/
theorem bestOf_eq_of_split (l l₁ l₂ : List Cand) (c : Cand) (hsplit : l = l₁ ++ c :: l₂)
    (hdom : ∀ x ∈ l, x = c ∨ tupLt x c) : bestOf l = some c := by
  subst hsplit
  refine foldl_optStep_reach c l₂ ?_ l₁ none ?_ (Or.inl rfl)
  · exact fun y hy => hdom y (by simp [List.mem_append, hy])
  · exact fun x hx => hdom x (by simp [List.mem_append, hx])

theorem foldl_optStep_max :
    ∀ (l : List Cand) (b r : Cand), l.foldl optStep (some b) = some r →
      (r = b ∨ r ∈ l) ∧ (b = r ∨ tupLt b r) ∧ ∀ x ∈ l, x = r ∨ tupLt x r
  | [], b, r, h => by
    simp only [List.foldl_nil, Option.some.injEq] at h
    exact ⟨Or.inl h.symm, Or.inl h, by simp⟩
  | x :: t, b, r, h => by
    simp only [List.foldl_cons, optStep] at h
    obtain ⟨hmem, hrel, hall⟩ := foldl_optStep_max t (if tupLt b x then x else b) r h
    by_cases hbx : tupLt b x
    · rw [if_pos hbx] at hmem hrel
      refine ⟨?_, ?_, ?_⟩
      · rcases hmem with rfl | hm
        · exact Or.inr (List.mem_cons_self _ _)
        · exact Or.inr (List.mem_cons_of_mem _ hm)
      · rcases hrel with rfl | hlt
        · exact Or.inr hbx
        · exact Or.inr (tupLt_trans hbx hlt)
      · intro y hy
        rcases List.mem_cons.mp hy with rfl | hyt
        · exact hrel
        · exact hall y hyt
    · rw [if_neg hbx] at hmem hrel
      refine ⟨?_, hrel, ?_⟩
      · rcases hmem with rfl | hm
        · exact Or.inl rfl
        · exact Or.inr (List.mem_cons_of_mem _ hm)
      · intro y hy
        rcases List.mem_cons.mp hy with rfl | hyt
        · -- `¬ tupLt b y`, so by totality `y = b` or `tupLt y b`; chain to `r`
          rcases tupLt_total y b with rfl | hlt | hlt
          · exact hrel
          · rcases hrel with rfl | hbr
            · exact Or.inr hlt
            · exact Or.inr (tupLt_trans hlt hbr)
          · exact absurd hlt hbx
        · exact hall y hyt

/-- The scan result is a member of the list and dominates every element. -/
theorem bestOf_max (l : List Cand) (c : Cand) (h : bestOf l = some c) :
    c ∈ l ∧ ∀ x ∈ l, x = c ∨ tupLt x c := by
  cases l with
  | nil => simp [bestOf] at h
  | cons x t =>
    unfold bestOf at h
    simp only [List.foldl_cons, optStep] at h
    obtain ⟨hmem, hrel, hall⟩ := foldl_optStep_max t x c h
    refine ⟨?_, ?_⟩
    · rcases hmem with rfl | hm
      · exact List.mem_cons_self _ _
      · exact List.mem_cons_of_mem _ hm
    · intro y hy
      rcases List.mem_cons.mp hy with rfl | hyt
      · exact hrel
      · exact hall y hyt

theorem foldl_firstStep_stay (b : Cand) :
    ∀ (l : List Cand), (∀ x ∈ l, x.score ≤ b.score) →
      l.foldl firstStep (some b) = some b
  | [], _ => rfl
  | x :: t, h => by
    have hx := h x (List.mem_cons_self x t)
    simp only [List.foldl_cons, firstStep, if_neg (not_lt.mpr hx)]
    exact foldl_firstStep_stay b t (fun y hy => h y (List.mem_cons_of_mem _ hy))

theorem foldl_firstStep_reach (c : Cand) (l₂ : List Cand)
    (h₂ : ∀ y ∈ l₂, y.score ≤ c.score) :
    ∀ (l₁ : List Cand) (acc : Option Cand),
      (∀ x ∈ l₁, x.score < c.score) →
      (acc = none ∨ ∃ a, acc = some a ∧ a.score < c.score) →
      (l₁ ++ c :: l₂).foldl firstStep acc = some c
  | [], acc, _, hacc => by
    simp only [List.nil_append, List.foldl_cons]
    have hstep : firstStep acc c = some c := by
      rcases hacc with rfl | ⟨a, rfl, ha⟩
      · rfl
      · simp [firstStep, if_pos ha]
    rw [hstep]
    exact foldl_firstStep_stay c l₂ h₂
  | x :: t, acc, h₁, hacc => by
    simp only [List.cons_append, List.foldl_cons]
    have hx := h₁ x (List.mem_cons_self x t)
    refine foldl_firstStep_reach c l₂ h₂ t (firstStep acc x)
      (fun y hy => h₁ y (List.mem_cons_of_mem _ hy)) (Or.inr ?_)
    rcases hacc with rfl | ⟨a, rfl, ha⟩
    · exact ⟨x, rfl, hx⟩
    · by_cases hax : a.score < x.score
      · exact ⟨x, by simp [firstStep, if_pos hax], hx⟩
      · exact ⟨a, by simp [firstStep, if_neg hax], ha⟩

/-- If the list splits around `c`, with everything before strictly below
`c`'s score and everything after at most `c`'s score, the first-argmax
selection returns `c`. -/
theorem specSelect_eq_of_split (l l₁ l₂ : List Cand) (c : Cand) (hsplit : l = l₁ ++ c :: l₂)
    (h₁ : ∀ x ∈ l₁, x.score < c.score) (h₂ : ∀ y ∈ l₂, y.score ≤ c.score) :
    specSelect l = some c := by
  subst hsplit
  exact foldl_firstStep_reach c l₂ h₂ l₁ none h₁ (Or.inl rfl)

set_option maxRecDepth 8000

/-!
Concrete evaluation of the `seq_gemini.py` solver on the tie-break input
`pool_conc_nM = 1`, `phix_working_nM = 1/99`, `effective_loading_pM =
125000/297`.  On this input every aliquot `L` of the `d = 1` block and
every `L ≥ 2` of the `d = 2` block survives, the candidates `(d = 1,
L = 6)` and `(d = 2, L = 6)` attain the identical maximal score
`-25000/297`, and all other candidates score strictly lower.
-/

theorem tieDom1 : ∀ c ∈ gBlock 1 (1/99) (125000/297) 1, c = candTie2 ∨ tupLt c candTie2 := by
  decide

theorem tieDom2 : ∀ c ∈ gBlock 1 (1/99) (125000/297) 2, c = candTie2 ∨ tupLt c candTie2 := by
  decide

theorem tieDom3 : ∀ c ∈ gBlock 1 (1/99) (125000/297) 3, c = candTie2 ∨ tupLt c candTie2 := by
  decide

theorem tieDom4 : ∀ c ∈ gBlock 1 (1/99) (125000/297) 4, c = candTie2 ∨ tupLt c candTie2 := by
  decide

theorem tieDom5 : ∀ c ∈ gBlock 1 (1/99) (125000/297) 5, c = candTie2 ∨ tupLt c candTie2 := by
  decide

theorem tieDom6 : ∀ c ∈ gBlock 1 (1/99) (125000/297) 6, c = candTie2 ∨ tupLt c candTie2 := by
  decide

theorem tieDom7 : ∀ c ∈ gBlock 1 (1/99) (125000/297) 7, c = candTie2 ∨ tupLt c candTie2 := by
  decide

theorem tieDom8 : ∀ c ∈ gBlock 1 (1/99) (125000/297) 8, c = candTie2 ∨ tupLt c candTie2 := by
  decide

theorem tieDom9 : ∀ c ∈ gBlock 1 (1/99) (125000/297) 9, c = candTie2 ∨ tupLt c candTie2 := by
  decide

theorem tieDom10 : ∀ c ∈ gBlock 1 (1/99) (125000/297) 10, c = candTie2 ∨ tupLt c candTie2 := by
  decide

theorem tieDom11 : ∀ c ∈ gBlock 1 (1/99) (125000/297) 11, c = candTie2 ∨ tupLt c candTie2 := by
  decide

theorem tieDom12 : ∀ c ∈ gBlock 1 (1/99) (125000/297) 12, c = candTie2 ∨ tupLt c candTie2 := by
  decide

theorem tieDom13 : ∀ c ∈ gBlock 1 (1/99) (125000/297) 13, c = candTie2 ∨ tupLt c candTie2 := by
  decide

theorem tieDom14 : ∀ c ∈ gBlock 1 (1/99) (125000/297) 14, c = candTie2 ∨ tupLt c candTie2 := by
  decide

theorem tieDom15 : ∀ c ∈ gBlock 1 (1/99) (125000/297) 15, c = candTie2 ∨ tupLt c candTie2 := by
  decide

theorem tieDom16 : ∀ c ∈ gBlock 1 (1/99) (125000/297) 16, c = candTie2 ∨ tupLt c candTie2 := by
  decide

theorem tieDom17 : ∀ c ∈ gBlock 1 (1/99) (125000/297) 17, c = candTie2 ∨ tupLt c candTie2 := by
  decide

theorem tieDom18 : ∀ c ∈ gBlock 1 (1/99) (125000/297) 18, c = candTie2 ∨ tupLt c candTie2 := by
  decide

theorem tieDom19 : ∀ c ∈ gBlock 1 (1/99) (125000/297) 19, c = candTie2 ∨ tupLt c candTie2 := by
  decide

theorem tieDom20 : ∀ c ∈ gBlock 1 (1/99) (125000/297) 20, c = candTie2 ∨ tupLt c candTie2 := by
  decide

theorem tieDom21 : ∀ c ∈ gBlock 1 (1/99) (125000/297) 21, c = candTie2 ∨ tupLt c candTie2 := by
  decide

theorem tieDom22 : ∀ c ∈ gBlock 1 (1/99) (125000/297) 22, c = candTie2 ∨ tupLt c candTie2 := by
  decide

theorem tieDom23 : ∀ c ∈ gBlock 1 (1/99) (125000/297) 23, c = candTie2 ∨ tupLt c candTie2 := by
  decide

theorem tieDom24 : ∀ c ∈ gBlock 1 (1/99) (125000/297) 24, c = candTie2 ∨ tupLt c candTie2 := by
  decide

theorem tieDom25 : ∀ c ∈ gBlock 1 (1/99) (125000/297) 25, c = candTie2 ∨ tupLt c candTie2 := by
  decide

theorem tieDom26 : ∀ c ∈ gBlock 1 (1/99) (125000/297) 26, c = candTie2 ∨ tupLt c candTie2 := by
  decide

theorem tieDom27 : ∀ c ∈ gBlock 1 (1/99) (125000/297) 27, c = candTie2 ∨ tupLt c candTie2 := by
  decide

theorem tieDom28 : ∀ c ∈ gBlock 1 (1/99) (125000/297) 28, c = candTie2 ∨ tupLt c candTie2 := by
  decide

theorem tieDom29 : ∀ c ∈ gBlock 1 (1/99) (125000/297) 29, c = candTie2 ∨ tupLt c candTie2 := by
  decide

theorem tieDom30 : ∀ c ∈ gBlock 1 (1/99) (125000/297) 30, c = candTie2 ∨ tupLt c candTie2 := by
  decide

theorem tieDom31 : ∀ c ∈ gBlock 1 (1/99) (125000/297) 31, c = candTie2 ∨ tupLt c candTie2 := by
  decide

theorem tieDom32 : ∀ c ∈ gBlock 1 (1/99) (125000/297) 32, c = candTie2 ∨ tupLt c candTie2 := by
  decide

theorem tieDom33 : ∀ c ∈ gBlock 1 (1/99) (125000/297) 33, c = candTie2 ∨ tupLt c candTie2 := by
  decide

theorem tieDom34 : ∀ c ∈ gBlock 1 (1/99) (125000/297) 34, c = candTie2 ∨ tupLt c candTie2 := by
  decide

theorem tieDom35 : ∀ c ∈ gBlock 1 (1/99) (125000/297) 35, c = candTie2 ∨ tupLt c candTie2 := by
  decide

theorem tieDom36 : ∀ c ∈ gBlock 1 (1/99) (125000/297) 36, c = candTie2 ∨ tupLt c candTie2 := by
  decide

theorem tieDom37 : ∀ c ∈ gBlock 1 (1/99) (125000/297) 37, c = candTie2 ∨ tupLt c candTie2 := by
  decide

theorem tieDom38 : ∀ c ∈ gBlock 1 (1/99) (125000/297) 38, c = candTie2 ∨ tupLt c candTie2 := by
  decide

theorem tieDom39 : ∀ c ∈ gBlock 1 (1/99) (125000/297) 39, c = candTie2 ∨ tupLt c candTie2 := by
  decide

theorem tieDom40 : ∀ c ∈ gBlock 1 (1/99) (125000/297) 40, c = candTie2 ∨ tupLt c candTie2 := by
  decide

theorem tieDom41 : ∀ c ∈ gBlock 1 (1/99) (125000/297) 41, c = candTie2 ∨ tupLt c candTie2 := by
  decide

theorem tieDom42 : ∀ c ∈ gBlock 1 (1/99) (125000/297) 42, c = candTie2 ∨ tupLt c candTie2 := by
  decide

theorem tieDom43 : ∀ c ∈ gBlock 1 (1/99) (125000/297) 43, c = candTie2 ∨ tupLt c candTie2 := by
  decide

theorem tieDom44 : ∀ c ∈ gBlock 1 (1/99) (125000/297) 44, c = candTie2 ∨ tupLt c candTie2 := by
  decide

theorem tieDom45 : ∀ c ∈ gBlock 1 (1/99) (125000/297) 45, c = candTie2 ∨ tupLt c candTie2 := by
  decide

theorem tieDom46 : ∀ c ∈ gBlock 1 (1/99) (125000/297) 46, c = candTie2 ∨ tupLt c candTie2 := by
  decide

theorem tieDom47 : ∀ c ∈ gBlock 1 (1/99) (125000/297) 47, c = candTie2 ∨ tupLt c candTie2 := by
  decide

theorem tieDom48 : ∀ c ∈ gBlock 1 (1/99) (125000/297) 48, c = candTie2 ∨ tupLt c candTie2 := by
  decide

theorem tieDom49 : ∀ c ∈ gBlock 1 (1/99) (125000/297) 49, c = candTie2 ∨ tupLt c candTie2 := by
  decide

theorem tieDom50 : ∀ c ∈ gBlock 1 (1/99) (125000/297) 50, c = candTie2 ∨ tupLt c candTie2 := by
  decide

theorem dGrid_cons2 : dGrid = 1 :: 2 :: List.drop 2 dGrid := by decide

theorem dGrid_cons1 : dGrid = 1 :: List.drop 1 dGrid := by decide

theorem tieDomAll :
    ∀ x ∈ gemCandidates 1 (1/99) (125000/297), x = candTie2 ∨ tupLt x candTie2 := by
  intro x hx
  unfold gemCandidates at hx
  rw [List.mem_flatMap] at hx
  obtain ⟨d, hd, hxd⟩ := hx
  fin_cases hd
  · exact tieDom1 x hxd
  · exact tieDom2 x hxd
  · exact tieDom3 x hxd
  · exact tieDom4 x hxd
  · exact tieDom5 x hxd
  · exact tieDom6 x hxd
  · exact tieDom7 x hxd
  · exact tieDom8 x hxd
  · exact tieDom9 x hxd
  · exact tieDom10 x hxd
  · exact tieDom11 x hxd
  · exact tieDom12 x hxd
  · exact tieDom13 x hxd
  · exact tieDom14 x hxd
  · exact tieDom15 x hxd
  · exact tieDom16 x hxd
  · exact tieDom17 x hxd
  · exact tieDom18 x hxd
  · exact tieDom19 x hxd
  · exact tieDom20 x hxd
  · exact tieDom21 x hxd
  · exact tieDom22 x hxd
  · exact tieDom23 x hxd
  · exact tieDom24 x hxd
  · exact tieDom25 x hxd
  · exact tieDom26 x hxd
  · exact tieDom27 x hxd
  · exact tieDom28 x hxd
  · exact tieDom29 x hxd
  · exact tieDom30 x hxd
  · exact tieDom31 x hxd
  · exact tieDom32 x hxd
  · exact tieDom33 x hxd
  · exact tieDom34 x hxd
  · exact tieDom35 x hxd
  · exact tieDom36 x hxd
  · exact tieDom37 x hxd
  · exact tieDom38 x hxd
  · exact tieDom39 x hxd
  · exact tieDom40 x hxd
  · exact tieDom41 x hxd
  · exact tieDom42 x hxd
  · exact tieDom43 x hxd
  · exact tieDom44 x hxd
  · exact tieDom45 x hxd
  · exact tieDom46 x hxd
  · exact tieDom47 x hxd
  · exact tieDom48 x hxd
  · exact tieDom49 x hxd
  · exact tieDom50 x hxd

theorem lGrid_split : lGrid = gA ++ (6 : ℚ) :: gB := by decide

theorem block1_eq :
    gBlock 1 (1/99) (125000/297) 1 = innerCands 1 1 (1/99) (125000/297) := by
  decide

theorem block2_eq :
    gBlock 1 (1/99) (125000/297) 2 = innerCands 2 (1/2) (1/99) (125000/297) := by
  decide

theorem mk1_at6 : mkCand 1 1 (1/99) (125000/297) 6 = some candTie1 := by decide

theorem mk2_at6 : mkCand 2 (1/2) (1/99) (125000/297) 6 = some candTie2 := by decide

theorem block1_split :
    innerCands 1 1 (1/99) (125000/297) =
      gA.filterMap (mkCand 1 1 (1/99) (125000/297)) ++ candTie1 ::
        gB.filterMap (mkCand 1 1 (1/99) (125000/297)) := by
  unfold innerCands
  rw [lGrid_split, List.filterMap_append]
  simp only [List.filterMap_cons, mk1_at6]

theorem block2_split :
    innerCands 2 (1/2) (1/99) (125000/297) =
      gA.filterMap (mkCand 2 (1/2) (1/99) (125000/297)) ++ candTie2 ::
        gB.filterMap (mkCand 2 (1/2) (1/99) (125000/297)) := by
  unfold innerCands
  rw [lGrid_split, List.filterMap_append]
  simp only [List.filterMap_cons, mk2_at6]

theorem gemCands_split2 :
    gemCandidates 1 (1/99) (125000/297) =
      (gBlock 1 (1/99) (125000/297) 1 ++
        gA.filterMap (mkCand 2 (1/2) (1/99) (125000/297))) ++ candTie2 ::
      (gB.filterMap (mkCand 2 (1/2) (1/99) (125000/297)) ++
        (List.drop 2 dGrid).flatMap (gBlock 1 (1/99) (125000/297))) := by
  conv_lhs => rw [gemCandidates, dGrid_cons2]
  rw [List.flatMap_cons, List.flatMap_cons, block2_eq, block2_split]
  simp [List.append_assoc]

theorem gemCands_split1 :
    gemCandidates 1 (1/99) (125000/297) =
      gA.filterMap (mkCand 1 1 (1/99) (125000/297)) ++ candTie1 ::
      (gB.filterMap (mkCand 1 1 (1/99) (125000/297)) ++
        (List.drop 1 dGrid).flatMap (gBlock 1 (1/99) (125000/297))) := by
  conv_lhs => rw [gemCandidates, dGrid_cons1]
  rw [List.flatMap_cons, block1_eq, block1_split]
  simp [List.append_assoc]

/-- On the tie-break input the `seq_gemini.py` solver selects the `d = 2`
tied candidate (the lexicographically greatest tuple). -/
theorem gemSolve_tie : gemSolve 1 (1/99) (125000/297) = some candTie2 :=
  bestOf_eq_of_split _ _ _ _ gemCands_split2 tieDomAll

theorem firstPart_lt :
    ∀ x ∈ gA.filterMap (mkCand 1 1 (1/99) (125000/297)),
      x.score < candTie1.score := by
  decide

theorem afterPart_le :
    ∀ y ∈ gB.filterMap (mkCand 1 1 (1/99) (125000/297)) ++
        (List.drop 1 dGrid).flatMap (gBlock 1 (1/99) (125000/297)),
      y.score ≤ candTie1.score := by
  intro y hy
  have hy' : y ∈ gemCandidates 1 (1/99) (125000/297) := by
    rw [gemCands_split1]
    exact List.mem_append_right _ (List.mem_cons_of_mem _ hy)
  rcases tieDomAll y hy' with rfl | hlt
  · exact le_of_eq (by decide)
  · exact (tupLt_score_le hlt).trans (le_of_eq (by decide))

/-- On the tie-break input the selection rule stated by the specification
(first-found maximal score) would pick the `d = 1` tied candidate. -/
theorem specSelect_tie :
    specSelect (gemCandidates 1 (1/99) (125000/297)) = some candTie1 :=
  specSelect_eq_of_split _ _ _ _ gemCands_split1 firstPart_lt afterPart_le

theorem avitiCands_eq :
    avitiCandidates 1 (1/99) (125000/297) 1 = innerCands 1 1 (1/99) (125000/297) := by
  decide

theorem avitiDom :
    ∀ c ∈ innerCands 1 1 (1/99) (125000/297), c = candTie1 ∨ tupLt c candTie1 := by
  decide

/-- The `aviti.py` solver with manual dilution factor 1 on the same input
selects the `L = 6` candidate. -/
theorem avitiSolve_eval : avitiSolve 1 (1/99) (125000/297) 1 = some candTie1 := by
  unfold avitiSolve
  rw [avitiCands_eq]
  exact bestOf_eq_of_split _ _ _ _ block1_split avitiDom

/-- Inversion of the inner-loop body: a produced candidate records the
rounded `L` and a rounded `P` whose unrounded value passed the
`1 ≤ P ≤ 10` filter. -/
theorem mkCand_inv (d C_L phix eff L : ℚ) (c : Cand)
    (h : mkCand d C_L phix eff L = some c) :
    ∃ P : ℚ, 1 ≤ P ∧ P ≤ 10 ∧ c.L = pyRound 2 L ∧ c.P = pyRound 2 P := by
  simp only [mkCand] at h
  by_cases h1 : (1 - phixFraction) * phix ≤ 0
  · rw [if_pos h1] at h; cases h
  rw [if_neg h1] at h
  by_cases h2 : (phixFraction * L * C_L) / ((1 - phixFraction) * phix) < 1 ∨
      10 < (phixFraction * L * C_L) / ((1 - phixFraction) * phix)
  · rw [if_pos h2] at h; cases h
  rw [if_neg h2] at h
  by_cases h3 : L + (phixFraction * L * C_L) / ((1 - phixFraction) * phix) ≤ 0 ∨
      30 < L + (phixFraction * L * C_L) / ((1 - phixFraction) * phix)
  · rw [if_pos h3] at h; cases h
  rw [if_neg h3] at h
  push_neg at h2
  rw [Option.some.injEq] at h
  subst h
  exact ⟨_, h2.1, h2.2, rfl, rfl⟩

/-- The aliquot grid consists of 2-decimal values between 1 and 10 µL. -/
theorem lGrid_facts :
    ∀ L ∈ lGrid, 1 ≤ L ∧ L ≤ 10 ∧ L * 10 ^ 2 = ((⌊L * 10 ^ 2⌋ : ℤ) : ℚ) := by
  decide

/-- Every candidate of the inner loop has pipettable rounded volumes. -/
theorem innerCands_bounds (d C_L phix eff : ℚ) (c : Cand)
    (h : c ∈ innerCands d C_L phix eff) :
    1 ≤ c.L ∧ c.L ≤ 10 ∧ 1 ≤ c.P ∧ c.P ≤ 10 := by
  unfold innerCands at h
  rw [List.mem_filterMap] at h
  obtain ⟨L, hLmem, hmk⟩ := h
  obtain ⟨hL1, hL2, hLg⟩ := lGrid_facts L hLmem
  obtain ⟨P, hP1, hP2, hcL, hcP⟩ := mkCand_inv d C_L phix eff _ c hmk
  have hLself : pyRound 2 L = L := pyRound_eq_self 2 _ _ hLg
  have hcP1 : (1 : ℚ) ≤ c.P := by
    have := le_pyRound 2 P 100 (by push_cast; norm_num; linarith)
    rw [hcP]
    calc (1:ℚ) = ((100 : ℤ) : ℚ) / 10 ^ 2 := by norm_num
    _ ≤ pyRound 2 P := this
  have hcP2 : c.P ≤ 10 := by
    have := pyRound_le 2 P 1000 (by push_cast; norm_num; linarith)
    rw [hcP]
    calc pyRound 2 P ≤ ((1000 : ℤ) : ℚ) / 10 ^ 2 := this
    _ = 10 := by norm_num
  rw [hcL, hLself]
  exact ⟨hL1, hL2, hcP1, hcP2⟩

/-- Every candidate of the `seq_gemini.py` candidate list has pipettable
rounded volumes. -/
theorem gemCandidates_bounds (pool phix eff : ℚ) (c : Cand)
    (h : c ∈ gemCandidates pool phix eff) :
    1 ≤ c.L ∧ c.L ≤ 10 ∧ 1 ≤ c.P ∧ c.P ≤ 10 := by
  unfold gemCandidates at h
  rw [List.mem_flatMap] at h
  obtain ⟨d, _, hcd⟩ := h
  unfold gBlock at hcd
  split at hcd
  · cases hcd
  · exact innerCands_bounds _ _ _ _ _ hcd

/-- A selected plan of the `seq_gemini.py` solver has pipettable volumes. -/
theorem gemSolve_bounds (pool phix eff : ℚ) (c : Cand)
    (h : gemSolve pool phix eff = some c) :
    1 ≤ c.L ∧ c.L ≤ 10 ∧ 1 ≤ c.P ∧ c.P ≤ 10 :=
  gemCandidates_bounds pool phix eff c (bestOf_max _ _ h).1

/-- A selected plan of the `aviti.py` solver has pipettable volumes. -/
theorem avitiSolve_bounds (pool phix eff : ℚ) (d : ℕ) (c : Cand)
    (h : avitiSolve pool phix eff d = some c) :
    1 ≤ c.L ∧ c.L ≤ 10 ∧ 1 ≤ c.P ∧ c.P ≤ 10 :=
  innerCands_bounds _ _ _ _ c (bestOf_max _ _ h).1

/-- C4 counterexample: the claim states the mass-to-molar conversion
returns `c * 1e6 / (660 * b)` and that any 0.8 recovery correction is a
configurable named coefficient rather than a hard-coded unconditional
constant; but `aviti.py`'s conversion multiplies a hard-coded `0.8`
unconditionally, so already at `c = 1` ng/µL, `b = 1` bp it does not
return the claimed value. -/
theorem C4_counterexample : pool_conc_nM 1 1 ≠ 1 * 1000000 / (660 * 1) := by
  decide

/-- C4 (amended): the `seq.py` conversion returns exactly
`c * 1e6 / (660 * b)` for positive inputs, while the `aviti.py` variant
returns `0.8` times that value, with `0.8` a fixed constant applied
unconditionally (no parameter exists to override it). -/
theorem C4_amended (c b : ℚ) :
    (0 < c → 0 < b → library_nM c b = c * 1000000 / (660 * b)) ∧
    pool_conc_nM c b = 0.8 * (c * 1000000 / (660 * b)) := by
  constructor
  · intro hc hb
    unfold library_nM
    rw [if_pos ⟨hc, hb⟩]
  · by_cases hb : b = 0
    · subst hb; simp [pool_conc_nM]
    · unfold pool_conc_nM; field_simp; ring

/-- C4 witness: the amended statement evaluated at 2 ng/µL and 350 bp. -/
theorem C4_witness :
    library_nM 2 350 = 2 * 1000000 / (660 * 350) ∧
    pool_conc_nM 2 350 = 0.8 * (2 * 1000000 / (660 * 350)) :=
  ⟨(C4_amended 2 350).1 (by norm_num) (by norm_num), (C4_amended 2 350).2⟩

/-- C5: for valid samples (all concentrations positive, nonnegative target
mass) the pool summary's total volume is the sum of the 6-decimal-rounded
per-sample volumes, the total mass is the sum of the 3-decimal-rounded
per-sample masses, and the pooled concentration equals exactly
total mass / total volume over those rounded values. -/
theorem C5_pool_summary (target : ℚ) (concs : List ℚ)
    (hc : ∀ c ∈ concs, 0 < c) (ht : 0 ≤ target) :
    pool_volume target concs = (concs.map (fun c => pyRound 6 (target / c))).sum ∧
    total_ng_pooled target concs =
      (concs.map (fun c => pyRound 3 (c * pyRound 6 (target / c)))).sum ∧
    expected_pooled_ngul target concs =
      total_ng_pooled target concs / pool_volume target concs := by
  refine ⟨rfl, rfl, ?_⟩
  unfold expected_pooled_ngul
  by_cases hpos : 0 < pool_volume target concs
  · rw [if_pos hpos]
  · rw [if_neg hpos]
    have hnn : 0 ≤ pool_volume target concs := by
      apply List.sum_nonneg
      intro x hx
      rw [List.mem_map] at hx
      obtain ⟨cc, hcc, rfl⟩ := hx
      exact pyRound_nonneg 6 _ (div_nonneg ht (le_of_lt (hc cc hcc)))
    have h0 : pool_volume target concs = 0 := le_antisymm (not_lt.mp hpos) hnn
    rw [h0, div_zero]

/-- C5 witness: the summary identity on the concrete sample list of the
spec's Scenario A. -/
theorem C5_witness :
    expected_pooled_ngul 30 [211/100, 239/100, 117/50] =
      total_ng_pooled 30 [211/100, 239/100, 117/50] /
        pool_volume 30 [211/100, 239/100, 117/50] :=
  (C5_pool_summary 30 [211/100, 239/100, 117/50] (by decide) (by decide)).2.2

/-- C6 counterexample: on concentrations `[2.11, 2.39, 2.34]` with target
mass 30 ng the claimed pool concentration `≈ 2.273235` ng/µL is off: the
value the code computes differs from it by more than `10⁻⁵` (it is
`≈ 2.273254`), although the claimed volumes, total volume and total mass
are exact to all shown digits. -/
theorem C6_counterexample :
    qabs (expected_pooled_ngul 30 [211/100, 239/100, 117/50] - 2.273235)
      > 1/100000 := by
  decide

/-- C6 (amended): on `[2.11, 2.39, 2.34]` ng/µL with `target_mass_ng = 30`
the per-sample volumes are `[14.218009, 12.552301, 12.820513]` µL, the
total volume is `39.590823` µL, the total mass is `90` ng, and the pool
concentration is exactly `90 / 39.590823 = 30000000/13196941 ≈ 2.273254`
ng/µL (not `≈ 2.273235`). -/
theorem C6_amended :
    (([211/100, 239/100, 117/50] : List ℚ).map (uL_to_pool 30)) =
      [14218009/1000000, 12552301/1000000, 12820513/1000000] ∧
    pool_volume 30 [211/100, 239/100, 117/50] = 39590823/1000000 ∧
    total_ng_pooled 30 [211/100, 239/100, 117/50] = 90 ∧
    expected_pooled_ngul 30 [211/100, 239/100, 117/50] = 30000000/13196941 ∧
    qabs (expected_pooled_ngul 30 [211/100, 239/100, 117/50] - 2.273254)
      < 1/1000000 := by
  decide

/-- C7: the PhiX-volume formula hits the target molar fraction exactly:
substituting `P = (f*L*C_L)/((1-f)*C_phix)` into
`(P*C_phix)/(L*C_L + P*C_phix)` yields `f` whenever `L*C_L > 0`,
`C_phix > 0` and `0 < f < 1`. -/
theorem C7_phix_fraction_exact (f L C_L C_phix : ℚ)
    (hL : 0 < L * C_L) (hphix : 0 < C_phix) (hf0 : 0 < f) (hf1 : f < 1) :
    achievedPhixFraction L C_L (phixVolume f L C_L C_phix) C_phix = f := by
  unfold achievedPhixFraction phixVolume
  have hf' : (0:ℚ) < 1 - f := by linarith
  have hP : 0 < (f * L * C_L) / ((1 - f) * C_phix) := by
    apply div_pos
    · calc (0:ℚ) < f * (L * C_L) := mul_pos hf0 hL
      _ = f * L * C_L := by ring
    · exact mul_pos hf' hphix
  have hprod : L * C_L ≠ 0 := ne_of_gt hL
  have hCPne : C_phix ≠ 0 := ne_of_gt hphix
  have hfne : (1 : ℚ) - f ≠ 0 := ne_of_gt hf'
  have hPC : (f * L * C_L) / ((1 - f) * C_phix) * C_phix =
      f * ((L * C_L) / (1 - f)) := by
    field_simp
    ring
  have hsum : L * C_L + f * ((L * C_L) / (1 - f)) = (L * C_L) / (1 - f) := by
    field_simp
    ring
  rw [hPC, hsum]
  exact mul_div_cancel_right₀ f (div_ne_zero hprod hfne)

/-- C7 witness: the spec's Scenario B numbers — `f = 0.01`, `L = 6`,
`C_L = 5`, `C_phix = 0.025` give `P = 400/33 ≈ 12.12` µL and exactly a 1%
achieved fraction. -/
theorem C7_witness :
    achievedPhixFraction 6 5 (phixVolume (1/100) 6 5 (1/40)) (1/40) = 1/100 :=
  C7_phix_fraction_exact (1/100) 6 5 (1/40) (by norm_num) (by norm_num)
    (by norm_num) (by norm_num)

/-- C9: for every selected plan the propagated volumes satisfy
`naoh = pre-denature total`, `tris = naoh`, post-neutralization total
`= 3 * pre-denature total`, and the loading buffer equals
`final - 3 * pre` whenever that is nonnegative. -/
theorem C9_propagation (Lv Pv : ℚ) :
    (avitiTopUp Lv Pv).naoh = (avitiTopUp Lv Pv).pre ∧
    (avitiTopUp Lv Pv).tris = (avitiTopUp Lv Pv).naoh ∧
    (avitiTopUp Lv Pv).total = 3 * (avitiTopUp Lv Pv).pre ∧
    (0 ≤ 1400 - 3 * (avitiTopUp Lv Pv).pre →
      (avitiTopUp Lv Pv).buffer = 1400 - 3 * (avitiTopUp Lv Pv).pre) := by
  obtain ⟨k, hk⟩ := pyRound_is_decimal 3 (Lv + Pv)
  have hpre : (avitiTopUp Lv Pv).pre = pyRound 3 (Lv + Pv) := rfl
  have htotal : (avitiTopUp Lv Pv).total =
      pyRound 3 (pyRound 3 (Lv + Pv) + pyRound 3 (Lv + Pv) + pyRound 3 (Lv + Pv)) := rfl
  have hbuffer : (avitiTopUp Lv Pv).buffer =
      pyRound 3 (max 0 (1400 -
        pyRound 3 (pyRound 3 (Lv + Pv) + pyRound 3 (Lv + Pv) + pyRound 3 (Lv + Pv)))) := rfl
  have h3 : pyRound 3 (pyRound 3 (Lv + Pv) + pyRound 3 (Lv + Pv) + pyRound 3 (Lv + Pv)) =
      3 * pyRound 3 (Lv + Pv) := by
    have h3k : (pyRound 3 (Lv + Pv) + pyRound 3 (Lv + Pv) + pyRound 3 (Lv + Pv)) * 10 ^ 3 =
        ((3 * k : ℤ) : ℚ) := by push_cast; linarith [hk]
    rw [pyRound_eq_self 3 _ _ h3k]; ring
  refine ⟨rfl, rfl, ?_, ?_⟩
  · rw [htotal, h3, hpre]
  · intro hge
    rw [hpre] at hge
    rw [hbuffer, h3, hpre]
    rw [max_eq_right hge]
    apply pyRound_eq_self 3 _ (1400000 - 3 * k)
    push_cast
    linarith [hk]

/-- C9 witness: the spec's Scenario D — a pre-denature total of 8 µL gives
NaOH 8 µL, Tris 8 µL, post-neutralization 24 µL and loading buffer
1376 µL. -/
theorem C9_witness :
    (avitiTopUp 3 5).pre = 8 ∧ (avitiTopUp 3 5).naoh = 8 ∧
    (avitiTopUp 3 5).tris = 8 ∧ (avitiTopUp 3 5).total = 24 ∧
    (avitiTopUp 3 5).buffer = 1376 := by
  have h := C9_propagation 3 5
  have hpre : (avitiTopUp 3 5).pre = 8 := by decide
  refine ⟨hpre, ?_, ?_, ?_, ?_⟩
  · rw [h.1, hpre]
  · rw [h.2.1, h.1, hpre]
  · rw [h.2.2.1, hpre]; norm_num
  · rw [h.2.2.2 (by rw [hpre]; norm_num), hpre]; norm_num

/-- C1 counterexample: the claim says the solver's selection is the
enumeration-order-first argmax of the score.  On the input
`pool_conc_nM = 1`, `phix_working_nM = 1/99`,
`effective_loading_pM = 125000/297`, the candidates `(d=1, L=6)` and
`(d=2, L=6)` tie for the maximal score; the first-found argmax (the
spec's selection rule) is the `d = 1` candidate, but the code's
`sort(reverse=True)` selects the `d = 2` candidate — the two selections
differ. -/
theorem C1_counterexample :
    gemSolve 1 (1/99) (125000/297) = some candTie2 ∧
    specSelect (gemCandidates 1 (1/99) (125000/297)) = some candTie1 ∧
    candTie1.score = candTie2.score ∧
    candTie1 ≠ candTie2 :=
  ⟨gemSolve_tie, specSelect_tie, by decide, by decide⟩

/-- C1 (amended): the solver's selection is the lexicographically greatest
candidate tuple `(score, d, L, P, pre_total, achieved)`; among score-tied
candidates the one with the greatest `(d, L)` — the enumeration-order-last,
not the first — is selected. -/
theorem C1_amended (pool phix eff : ℚ) (c : Cand)
    (h : gemSolve pool phix eff = some c) :
    c ∈ gemCandidates pool phix eff ∧
    ∀ x ∈ gemCandidates pool phix eff, x = c ∨ tupLt x c :=
  bestOf_max _ _ h

/-- C1 witness: the amended statement on the tie-break input. -/
theorem C1_witness :
    candTie2 ∈ gemCandidates 1 (1/99) (125000/297) ∧
    ∀ x ∈ gemCandidates 1 (1/99) (125000/297), x = candTie2 ∨ tupLt x candTie2 :=
  C1_amended 1 (1/99) (125000/297) candTie2 gemSolve_tie

/-- C2 counterexample: the claim says that on an infeasible input no
fallback or default plan is produced and downstream volumes are not
computed from a default pre-denature volume of zero.  With
`phix_working_nM = 0` (so every candidate is filtered out) the `aviti.py`
solver indeed yields `None`, but the downstream section still computes
volumes from the defaulted `(chosen_L or 0) + (chosen_P or 0) = 0`:
NaOH 0 µL, Tris 0 µL, and 1400 µL of loading buffer. -/
theorem C2_counterexample :
    avitiSolve 1 0 10 5 = none ∧
    avitiDownstream (avitiSolve 1 0 10 5) = ⟨0, 0, 0, 0, 1400⟩ := by
  have h : avitiSolve 1 0 10 5 = none := by decide
  refine ⟨h, ?_⟩
  rw [h]
  decide

/-- C2 (amended): when no `(d, L)` pair survives filtering the `aviti.py`
solver returns the distinguishable outcome `None`, but the downstream
top-up is still computed from a default pre-denature volume of 0, giving
NaOH = Tris = 0 µL, post-neutralization total 0 µL and a 1400 µL loading
buffer instruction. -/
theorem C2_amended (pool phix eff : ℚ) (d : ℕ)
    (h : avitiSolve pool phix eff d = none) :
    avitiDownstream (avitiSolve pool phix eff d) = ⟨0, 0, 0, 0, 1400⟩ := by
  rw [h]
  decide

/-- C2 witness: the amended statement on the `phix_working_nM = 0`
infeasible input. -/
theorem C2_witness :
    avitiSolve 1 0 10 5 = none ∧
    avitiDownstream (avitiSolve 1 0 10 5) = ⟨0, 0, 0, 0, 1400⟩ := by
  have h : avitiSolve 1 0 10 5 = none := by decide
  exact ⟨h, C2_amended 1 0 10 5 h⟩

/-- C8: every solver success has `1 ≤ L ≤ 10`, `1 ≤ P ≤ 10` and a combined
pre-denature volume within the 30 µL cap; and in the spec's Scenario B
(`pool_conc_nM = 10`, `d = 2`, `f = 0.01`, `phix_working_nM = 0.025`,
`L = 6.0`) the derived `P = 400/33 ≈ 12.12` µL exceeds `V_max = 10`, so
that `(d, L)` pair yields no candidate — whatever the loading target —
and can never become the selected plan. -/
theorem C8_pipettable (pool phix eff : ℚ) (c : Cand)
    (h : gemSolve pool phix eff = some c) :
    (1 ≤ c.L ∧ c.L ≤ 10 ∧ 1 ≤ c.P ∧ c.P ≤ 10 ∧ c.L + c.P ≤ 30) ∧
    ∀ eff2 : ℚ, mkCand 2 (10 / 2) (1/40) eff2 6 = none := by
  constructor
  · obtain ⟨h1, h2, h3, h4⟩ := gemSolve_bounds pool phix eff c h
    exact ⟨h1, h2, h3, h4, by linarith⟩
  · intro eff2
    simp only [mkCand]
    norm_num [phixFraction]

/-- C8 witness: the bounds evaluated on the selected plan of the tie-break
input, and Scenario B's rejection at a concrete loading target. -/
theorem C8_witness :
    gemSolve 1 (1/99) (125000/297) = some candTie2 ∧
    (1 ≤ candTie2.L ∧ candTie2.L ≤ 10 ∧ 1 ≤ candTie2.P ∧ candTie2.P ≤ 10 ∧
      candTie2.L + candTie2.P ≤ 30) ∧
    mkCand 2 (10 / 2) (1/40) 0 6 = none :=
  ⟨gemSolve_tie, (C8_pipettable 1 (1/99) (125000/297) candTie2 gemSolve_tie).1,
    (C8_pipettable 1 (1/99) (125000/297) candTie2 gemSolve_tie).2 0⟩

/-- C3: the loading buffer is always nonnegative; in `seq.py` the
over-capacity warning is raised exactly when the unclamped value
`1400 - post_neutralization_total` is negative; and for every plan
actually selected by the `aviti.py` solver the unclamped value is
nonnegative (the post-neutralization total is at most 60 µL), so the
clamp in `aviti.py` never hides a capacity violation. -/
theorem C3_capacity (T pool phix eff : ℚ) (d : ℕ) (c : Cand)
    (h : avitiSolve pool phix eff d = some c) :
    0 ≤ (seqTopUp T).buffer ∧
    (1400 - (seqTopUp T).total < 0 ↔ (seqTopUp T).capacityWarning = true) ∧
    0 ≤ 1400 - (avitiDownstream (avitiSolve pool phix eff d)).total := by
  refine ⟨?_, ?_, ?_⟩
  · have hb : (seqTopUp T).buffer =
        pyRound 3 (max 0 (1400 - pyRound 3 (T + T + T))) := rfl
    rw [hb]
    exact pyRound_nonneg 3 _ (le_max_left _ _)
  · have hw : (seqTopUp T).capacityWarning =
        decide (1400 < pyRound 3 (T + T + T)) := rfl
    have htot : (seqTopUp T).total = pyRound 3 (T + T + T) := rfl
    rw [hw, htot, sub_neg]
    exact decide_eq_true_iff.symm
  · rw [h]
    have hd : avitiDownstream (some c) = avitiTopUp c.L c.P := rfl
    rw [hd]
    obtain ⟨h1, h2, h3, h4⟩ := avitiSolve_bounds pool phix eff d c h
    have hpre_eq : (avitiTopUp c.L c.P).pre = pyRound 3 (c.L + c.P) := rfl
    have hpre_le : (avitiTopUp c.L c.P).pre ≤ 20 := by
      rw [hpre_eq]
      have hle := pyRound_le 3 (c.L + c.P) 20000 (by push_cast; norm_num; linarith)
      calc pyRound 3 (c.L + c.P) ≤ ((20000 : ℤ) : ℚ) / 10 ^ 3 := hle
      _ = 20 := by norm_num
    have htot_eq : (avitiTopUp c.L c.P).total =
        pyRound 3 (pyRound 3 (c.L + c.P) + pyRound 3 (c.L + c.P) +
          pyRound 3 (c.L + c.P)) := rfl
    have htot_le : (avitiTopUp c.L c.P).total ≤ 60 := by
      rw [htot_eq]
      rw [hpre_eq] at hpre_le
      have hle := pyRound_le 3
        (pyRound 3 (c.L + c.P) + pyRound 3 (c.L + c.P) + pyRound 3 (c.L + c.P))
        60000 (by push_cast; norm_num; linarith)
      calc pyRound 3 _ ≤ ((60000 : ℤ) : ℚ) / 10 ^ 3 := hle
      _ = 60 := by norm_num
    linarith

/-- C3 witness: the capacity statement at `T = 500` µL (where the warning
fires) and on the selected plan of the tie-break input. -/
theorem C3_witness :
    avitiSolve 1 (1/99) (125000/297) 1 = some candTie1 ∧
    0 ≤ (seqTopUp 500).buffer ∧
    (1400 - (seqTopUp 500).total < 0 ↔ (seqTopUp 500).capacityWarning = true) ∧
    (seqTopUp 500).capacityWarning = true ∧
    0 ≤ 1400 - (avitiDownstream (avitiSolve 1 (1/99) (125000/297) 1)).total := by
  have h := C3_capacity 500 1 (1/99) (125000/297) 1 candTie1 avitiSolve_eval
  exact ⟨avitiSolve_eval, h.1, h.2.1, by decide, h.2.2⟩

theorem chooseAliquots_fallback_inv (lib f prep L P : ℚ)
    (h : chooseAliquots lib f prep = .fallback L P) :
    seqFallback lib f (min prep 10) = .fallback L P := by
  simp only [chooseAliquots] at h
  cases hfind : findAliquot lib f (min prep 10) candidate_L with
  | none => rwa [hfind] at h
  | some a =>
    obtain ⟨La, Pa⟩ := a
    rw [hfind] at h
    cases h

/-- C10 counterexample: the claim says the fallback pre-denature total is
bounded only by `max_L_available + 1`.  With `library_nM = 990`,
`f = 0.01` and `prep_diluted_vol = 0.9` the grid loop breaks immediately
(`1.0 > 0.9`), the fallback returns `L = 0.9`, `P = 9`, and the total
`9.9` exceeds `max_L_available + 1 = 1.9`. -/
theorem C10_counterexample :
    chooseAliquots 990 (1/100) (9/10) = .fallback (9/10) 9 ∧
    ¬ ((9:ℚ)/10 + 9 ≤ min ((9:ℚ)/10) 10 + 1) := by
  constructor
  · decide
  · decide

/-- C10 (amended): in the fallback branch of `seq.py` (with positive
library concentration, `0 < f < 1`, and a positive 3-decimal
`prep_diluted_vol` as the program always produces) the returned PhiX
volume satisfies `1 ≤ P ≤ 10`; the pre-denature total `L + P` is at most
`max 10 (max_L_available + 1)`; and it exceeds the 10 µL cap exactly when
`max_L_available > 9` µL. -/
theorem C10_amended (lib f prep L P : ℚ)
    (hlib : 0 < lib) (hf0 : 0 < f) (hf1 : f < 1) (hprep : 0 < prep)
    (k : ℤ) (hk : prep * 10 ^ 3 = (k : ℚ))
    (h : chooseAliquots lib f prep = .fallback L P) :
    (1 ≤ P ∧ P ≤ 10) ∧
    L + P ≤ max 10 (min prep 10 + 1) ∧
    (10 < L + P ↔ 9 < min prep 10) := by
  have hsf := chooseAliquots_fallback_inv lib f prep L P h
  obtain ⟨kL, hkL⟩ : ∃ kL : ℤ, (min prep 10) * 10 ^ 3 = (kL : ℚ) := by
    rcases le_total prep 10 with hple | hpge
    · exact ⟨k, by rw [min_eq_left hple]; exact hk⟩
    · exact ⟨10000, by rw [min_eq_right hpge]; norm_num⟩
  have hM0 : 0 < min prep 10 := lt_min hprep (by norm_num)
  have hLeq : pyRound 3 (min prep 10) = min prep 10 := pyRound_eq_self 3 _ kL hkL
  simp only [seqFallback] at hsf
  rw [if_neg (by push_neg; constructor <;> linarith)] at hsf
  rw [hLeq] at hsf
  rw [AliquotResult.fallback.injEq] at hsf
  obtain ⟨hL, hP⟩ := hsf
  subst hL
  subst hP
  set M := min prep 10 with hMdef
  set P1 := max 1 (min (f * M * lib / (1 * (1 - f))) 10) with hP1def
  have hP1ge : (1 : ℚ) ≤ P1 := le_max_left _ _
  have hP1le : P1 ≤ 10 := max_le (by norm_num) (min_le_right _ _)
  by_cases hcond : 10 < M + P1
  · rw [if_pos hcond]
    by_cases h9 : 9 < M
    · -- L > 9: the reduced PhiX volume is floored at 1 µL
      have hmax : max 1 (10 - M) = 1 := max_eq_left (by linarith)
      rw [hmax]
      have h1 : pyRound 3 (1 : ℚ) = 1 := pyRound_eq_self 3 1 1000 (by norm_num)
      rw [h1, h1]
      refine ⟨⟨le_refl _, by norm_num⟩, le_max_right _ _, ?_⟩
      exact iff_of_true (by linarith) h9
    · -- L ≤ 9: the reduction gives exactly a 10 µL total
      have hmax : max 1 (10 - M) = 10 - M := max_eq_right (by linarith)
      rw [hmax]
      have hsub : pyRound 3 (10 - M) = 10 - M := by
        apply pyRound_eq_self 3 _ (10000 - kL)
        push_cast
        linarith [hkL]
      rw [hsub, hsub]
      have hMsum : M + (10 - M) = 10 := by ring
      refine ⟨⟨by linarith, by linarith⟩, ?_, ?_⟩
      · rw [hMsum]
        exact le_max_left _ _
      · rw [hMsum]
        exact iff_of_false (by linarith) (by linarith)
  · rw [if_neg hcond]
    push_neg at hcond
    have hPle10M : pyRound 3 P1 ≤ 10 - M := by
      have hb := pyRound_le 3 P1 (10000 - kL) (by push_cast; linarith [hkL])
      calc pyRound 3 P1 ≤ ((10000 - kL : ℤ) : ℚ) / 10 ^ 3 := hb
      _ = 10 - M := by push_cast; linarith [hkL]
    have hPge1 : (1 : ℚ) ≤ pyRound 3 P1 := by
      have hb := le_pyRound 3 P1 1000 (by push_cast; linarith)
      calc (1 : ℚ) = ((1000 : ℤ) : ℚ) / 10 ^ 3 := by norm_num
      _ ≤ pyRound 3 P1 := hb
    have hPle : pyRound 3 P1 ≤ 10 := by
      have hb := pyRound_le 3 P1 10000 (by push_cast; linarith)
      calc pyRound 3 P1 ≤ ((10000 : ℤ) : ℚ) / 10 ^ 3 := hb
      _ = 10 := by norm_num
    refine ⟨⟨hPge1, hPle⟩, ?_, ?_⟩
    · calc M + pyRound 3 P1 ≤ M + (10 - M) := by linarith
      _ = 10 := by ring
      _ ≤ max 10 (M + 1) := le_max_left _ _
    · constructor
      · intro hgt
        exfalso
        linarith
      · intro h9
        exfalso
        -- a quiet fallback with `M > 9` is impossible: `P1 ≥ 1` forces the cap
        linarith

/-- C10 witness: the amended statement at `library_nM = 990`, `f = 0.01`,
`prep_diluted_vol = 9.5`: the fallback returns `L = 9.5`, `P = 1`, and the
total `10.5 = max_L_available + 1` exceeds the 10 µL cap. -/
theorem C10_witness :
    chooseAliquots 990 (1/100) (19/2) = .fallback (19/2) 1 ∧
    (1 ≤ (1:ℚ) ∧ (1:ℚ) ≤ 10) ∧
    (19:ℚ)/2 + 1 ≤ max 10 (min ((19:ℚ)/2) 10 + 1) ∧
    (10 < (19:ℚ)/2 + 1 ↔ 9 < min ((19:ℚ)/2) 10) := by
  have h : chooseAliquots 990 (1/100) (19/2) = .fallback (19/2) 1 := by decide
  exact ⟨h, C10_amended 990 (1/100) (19/2) (19/2) 1 (by norm_num) (by norm_num)
    (by norm_num) (by norm_num) 9500 (by norm_num) h⟩

end Aviti
